import Mathlib

set_option maxRecDepth 40000

/-!
Verification of the gasless-sdk typed-data hashing, signature codec,
token-amount formatting, configuration resolution and transfer
orchestration against their natural-language specification.

Byte strings are modelled as `List Nat` (each element a byte value),
hex strings as `List Char`, and JavaScript bigint values as `Nat`
(the specified inputs are unsigned).  The viem primitives used by the
source (`keccak256`, `encodeAbiParameters`, `toHex` on strings) are
modelled faithfully: `keccak256` is a full executable Keccak-256 and
`encodeAbiParameters` performs per-type 32-byte word encoding.
-/

namespace Gasless

/-- Little-endian byte rendering of a number, fixed width `k`. -/
def leBytes : Nat → Nat → List Nat
  | 0, _ => []
  | k + 1, n => n % 256 :: leBytes k (n / 256)

/-- Big-endian byte rendering of a number, fixed width `k`. -/
def beBytes (k n : Nat) : List Nat :=
  (leBytes k n).reverse

/-- Value of a little-endian byte list. -/
def leVal (l : List Nat) : Nat :=
  l.foldr (fun b acc => b + 256 * acc) 0

/-- UTF-8 bytes of a string (the source's `toHex(string)` payload). -/
def strBytes (s : String) : List Nat :=
  s.toUTF8.toList.map (fun b => b.toNat)

/-! ## Keccak-256 -/

/-- The FIPS-202 rc bit sequence: an 8-bit LFSR with feedback polynomial
x^8 + x^6 + x^5 + x^4 + 1, iterated t times from 1; the output is the
low bit of the register. -/
def keccakRcBit (t : Nat) : Nat :=
  (Nat.iterate (fun R =>
    let R2 := R * 2
    if 256 ≤ R2 then R2 ^^^ 0x171 else R2) t 1) % 2

/-- Round constant of round i: bit rc(7i + j) lands at position 2^j - 1
of the 64-bit lane, for j = 0..6. -/
def keccakRoundConstant (i : Nat) : Nat :=
  (List.range 7).foldl
    (fun acc j => acc + keccakRcBit (7 * i + j) * 2 ^ (2 ^ j - 1)) 0

/-- Round constants of Keccak-f[1600], derived from the LFSR. -/
def keccakRC : List Nat :=
  (List.range 24).map keccakRoundConstant

/-- Source lane of the combined rho-pi step, for each destination index
(lane (x, y) sits at flat index x + 5 * y). -/
def keccakPiSrc : List Nat :=
  [0, 6, 12, 18, 24, 3, 9, 10, 16, 22, 1, 7, 13, 19, 20, 4, 5, 11, 17, 23, 2, 8, 14, 15, 21]

/-- Rotation amount of the combined rho-pi step, for each destination index. -/
def keccakPiRot : List Nat :=
  [0, 44, 43, 21, 14, 28, 20, 3, 45, 61, 1, 6, 25, 8, 18, 27, 36, 10, 15, 56, 62, 55, 39, 41, 2]

/-- 64-bit left rotation. -/
def rotl64 (x n : Nat) : Nat :=
  (((x <<< (n % 64)) % (2 ^ 64)) ||| (x >>> (64 - n % 64))) % (2 ^ 64)

/-- The 5x5 lane state: 25 lanes, lane (x, y) at flat index x + 5 * y. -/
def KecSt : Type := List Nat

/-- Lane lookup. -/
def kecGet (A : KecSt) (i : Nat) : Nat :=
  List.getD A i 0

/-- Theta step. -/
def kecTheta (A : KecSt) : KecSt :=
  let C := fun x => kecGet A x ^^^ kecGet A (x + 5) ^^^ kecGet A (x + 10) ^^^
    kecGet A (x + 15) ^^^ kecGet A (x + 20)
  let D := fun x => C ((x + 4) % 5) ^^^ rotl64 (C ((x + 1) % 5)) 1
  (List.range 25).map (fun i => kecGet A i ^^^ D (i % 5))

/-- Combined rho and pi steps via the precomputed tables. -/
def kecRhoPi (A : KecSt) : KecSt :=
  (List.range 25).map (fun i => rotl64 (kecGet A (keccakPiSrc.getD i 0)) (keccakPiRot.getD i 0))

/-- Chi step. -/
def kecChi (A : KecSt) : KecSt :=
  (List.range 25).map (fun i =>
    let x := i % 5
    let y := i / 5
    kecGet A i ^^^ ((kecGet A ((x + 1) % 5 + 5 * y) ^^^ (2 ^ 64 - 1)) &&&
      kecGet A ((x + 2) % 5 + 5 * y)))

/-- Iota step. -/
def kecIota (rc : Nat) (A : KecSt) : KecSt :=
  (List.range 25).map (fun i => if i = 0 then kecGet A 0 ^^^ rc else kecGet A i)

/-- The Keccak-f[1600] permutation. -/
def keccakF (A : KecSt) : KecSt :=
  (List.range 24).foldl
    (fun B rnd => kecIota (keccakRC.getD rnd 0) (kecChi (kecRhoPi (kecTheta B)))) A

/-- Keccak multi-rate padding for rate 136 (pad bytes 0x01 .. 0x80). -/
def keccakPad (msg : List Nat) : List Nat :=
  let padLen := 136 - msg.length % 136
  if padLen = 1 then msg ++ [0x81]
  else msg ++ 0x01 :: List.replicate (padLen - 2) 0 ++ [0x80]

/-- XOR one 136-byte block into the state. -/
def kecAbsorb (A : KecSt) (block : List Nat) : KecSt :=
  (List.range 25).map (fun i =>
    if i < 17 then kecGet A i ^^^ leVal ((block.drop (8 * i)).take 8) else kecGet A i)

/-- Keccak-256 of a byte string. -/
def keccak256 (msg : List Nat) : List Nat :=
  let padded := keccakPad msg
  let A := (List.range (padded.length / 136)).foldl
    (fun A i => keccakF (kecAbsorb A ((padded.drop (136 * i)).take 136)))
    (List.replicate 25 0)
  leBytes 8 (kecGet A 0) ++ leBytes 8 (kecGet A 1) ++ leBytes 8 (kecGet A 2) ++
    leBytes 8 (kecGet A 3)

/-! ## ABI parameter encoding (viem `encodeAbiParameters`, static types)

The source only encodes the static types `uint256`, `address`, `bytes1`
and `bytes32`; each occupies one 32-byte head word and has no tail.
`bytes1` is right-padded, numbers and addresses are left-padded
big-endian words, `bytes32` is the 32-byte value itself. -/

inductive AbiValue
  | uint256 (n : Nat)
  | address (a : Nat)
  | bytes1 (b : Nat)
  | bytes32 (bs : List Nat)

/-- The 32-byte head word of a static ABI value. -/
def abiWord : AbiValue → List Nat
  | .uint256 n => beBytes 32 (n % 2 ^ 256)
  | .address a => beBytes 32 (a % 2 ^ 160)
  | .bytes1 b => (b % 256) :: List.replicate 31 0
  | .bytes32 bs => bs

def encodeAbiParameters (vs : List AbiValue) : List Nat :=
  (vs.map abiWord).flatten


/-- Decidable equality for outcomes, used to evaluate the codec and the
orchestrator on concrete inputs. -/
instance {e a : Type} [DecidableEq e] [DecidableEq a] : DecidableEq (Except e a) := fun x y =>
  match x, y with
  | .ok u, .ok v =>
    if h : u = v then .isTrue (by rw [h]) else .isFalse (fun he => by cases he; exact h rfl)
  | .error u, .error v =>
    if h : u = v then .isTrue (by rw [h]) else .isFalse (fun he => by cases he; exact h rfl)
  | .ok _, .error _ => .isFalse (fun he => by cases he)
  | .error _, .ok _ => .isFalse (fun he => by cases he)

/-! ## EIP-712 hasher (src/eip712.ts) -/

structure EIP712Domain where
  name : String
  version : String
  chainId : Nat
  verifyingContract : Nat
deriving DecidableEq

/-- Field declaration order of the TS `EIP712MetaTransfer` interface and of
`encodeMetaTransferData` (deadline before nonce, as in the source). -/
structure EIP712MetaTransfer where
  owner : Nat
  token : Nat
  recipient : Nat
  amount : Nat
  fee : Nat
  deadline : Nat
  nonce : Nat
deriving DecidableEq

def eip712DomainTypeString : String :=
  "EIP712Domain(string name,string version,uint256 chainId,address verifyingContract)"

def EIP712_DOMAIN_TYPEHASH : List Nat :=
  keccak256 (strBytes eip712DomainTypeString)

/-- The exact type string hashed by the source for `META_TRANSFER_TYPEHASH`
(note: `uint256 deadline` before `uint256 nonce`). -/
def metaTransferTypeString : String :=
  "MetaTransfer(address owner,address token,address recipient,uint256 amount,uint256 fee,uint256 deadline,uint256 nonce)"

def META_TRANSFER_TYPEHASH : List Nat :=
  keccak256 (strBytes metaTransferTypeString)

def createDomainSeparator (domain : EIP712Domain) : List Nat :=
  keccak256 (encodeAbiParameters
    [.bytes32 EIP712_DOMAIN_TYPEHASH,
     .bytes32 (keccak256 (strBytes domain.name)),
     .bytes32 (keccak256 (strBytes domain.version)),
     .uint256 domain.chainId,
     .address domain.verifyingContract])

def encodeMetaTransferData (metaTx : EIP712MetaTransfer) : List Nat :=
  encodeAbiParameters
    [.bytes32 META_TRANSFER_TYPEHASH,
     .address metaTx.owner,
     .address metaTx.token,
     .address metaTx.recipient,
     .uint256 metaTx.amount,
     .uint256 metaTx.fee,
     .uint256 metaTx.deadline,
     .uint256 metaTx.nonce]

/-- The source computes the final digest with `encodeAbiParameters` over
`(bytes1, bytes1, bytes32, bytes32)` — not with packed concatenation. -/
def createMetaTransferHash (domain : EIP712Domain) (metaTx : EIP712MetaTransfer) : List Nat :=
  let domainSeparator := createDomainSeparator domain
  let structHash := keccak256 (encodeMetaTransferData metaTx)
  keccak256 (encodeAbiParameters
    [.bytes1 0x19, .bytes1 0x01, .bytes32 domainSeparator, .bytes32 structHash])

/-- The MetaTransfer tuple components of `executeMetaTransfer` as declared in
the relayer service's `GASLESS_ABI` (field name, solidity type; here `nonce`
comes before `deadline`). -/
def gaslessAbiMetaTransferComponents : List (String × String) :=
  [("owner", "address"), ("token", "address"), ("recipient", "address"),
   ("amount", "uint256"), ("fee", "uint256"), ("nonce", "uint256"), ("deadline", "uint256")]

/-- EIP-712 type signature string derived from an ordered component list. -/
def typeStringOfComponents (name : String) (comps : List (String × String)) : String :=
  name ++ "(" ++ String.intercalate "," (comps.map (fun c => c.2 ++ " " ++ c.1)) ++ ")"

/-! ## Signature codec (src/eip712.ts `parseSignature` / `formatSignature`,
src/utils/helpers.ts `hexToSignature` / `signatureToHex`)

Hex strings are `List Char` (including the leading `0x`).  A JS number
that may be NaN is `Option Nat` (`none` = NaN). -/

structure SignatureData where
  v : Option Nat
  r : List Char
  s : List Char
deriving DecidableEq

def hexDigitVal (c : Char) : Option Nat :=
  if 48 ≤ c.toNat ∧ c.toNat ≤ 57 then some (c.toNat - 48)
  else if 97 ≤ c.toNat ∧ c.toNat ≤ 102 then some (c.toNat - 87)
  else if 65 ≤ c.toNat ∧ c.toNat ≤ 70 then some (c.toNat - 55)
  else none

/-- JS `parseInt(s, 16)`: strips an optional 0x/0X, consumes the maximal
leading run of hex digits, NaN when that run is empty. -/
def jsParseIntHex (l : List Char) : Option Nat :=
  let body := match l with
    | c0 :: c1 :: rest => if c0 = '0' ∧ (c1 = 'x' ∨ c1 = 'X') then rest else l
    | _ => l
  let ds := body.takeWhile (fun c => (hexDigitVal c).isSome)
  if ds.isEmpty then none
  else some (ds.foldl (fun acc c => 16 * acc + (hexDigitVal c).getD 0) 0)

def parseSignature (signature : List Char) : Except String SignatureData :=
  if signature.length ≠ 132 then .error ("Invalid signature length")
  else
    .ok { r := signature.take 66,
          s := '0' :: 'x' :: ((signature.drop 66).take 64),
          v := jsParseIntHex ((signature.drop 130).take 2) }

def hexDigitChar (n : Nat) : Char :=
  if n < 10 then Char.ofNat (48 + n) else Char.ofNat (87 + n)

/-- Decimal digits of a number, by structural recursion on a fuel bound
(so that it reduces definitionally; `n + 1` fuel always suffices). -/
def natToDecAux : Nat → Nat → List Char
  | 0, _ => []
  | fuel + 1, n =>
    if n < 10 then [Char.ofNat (48 + n)]
    else natToDecAux fuel (n / 10) ++ [Char.ofNat (48 + n % 10)]

/-- Decimal digits of a number (JS `BigInt.prototype.toString`). -/
def natToDec (n : Nat) : List Char :=
  natToDecAux (n + 1) n

/-- Lowercase hex digits of a number, by structural recursion on a fuel
bound. -/
def natToHexAux : Nat → Nat → List Char
  | 0, _ => []
  | fuel + 1, n =>
    if n < 16 then [hexDigitChar n]
    else natToHexAux fuel (n / 16) ++ [hexDigitChar (n % 16)]

/-- Lowercase hex digits of a number (JS `Number.prototype.toString(16)`
for non-negative integers). -/
def natToHex (n : Nat) : List Char :=
  natToHexAux (n + 1) n

/-- JS `Number.prototype.toString(16)` where the number may be NaN. -/
def jsNumToHexString : Option Nat → List Char
  | none => ['N', 'a', 'N']
  | some n => natToHex n

def jsPadStart (l : List Char) (len : Nat) (c : Char) : List Char :=
  List.replicate (len - l.length) c ++ l

def jsPadEnd (l : List Char) (len : Nat) (c : Char) : List Char :=
  l ++ List.replicate (len - l.length) c

def formatSignature (sig : SignatureData) : List Char :=
  '0' :: 'x' :: (sig.r.drop 2 ++ sig.s.drop 2 ++ jsPadStart (jsNumToHexString sig.v) 2 '0')

/-- src/utils/helpers.ts `hexToSignature` (same body as `parseSignature`). -/
def hexToSignature (hex : List Char) : Except String SignatureData :=
  if hex.length ≠ 132 then .error ("Invalid signature length")
  else
    .ok { r := hex.take 66,
          s := '0' :: 'x' :: ((hex.drop 66).take 64),
          v := jsParseIntHex ((hex.drop 130).take 2) }

/-- src/utils/helpers.ts `signatureToHex` (same body as `formatSignature`). -/
def signatureToHex (signature : SignatureData) : List Char :=
  '0' :: 'x' :: (signature.r.drop 2 ++ signature.s.drop 2 ++
    jsPadStart (jsNumToHexString signature.v) 2 '0')

/-- The signature handling inside `signPermit`: a 64-byte (130-char) wallet
signature gets `1b` appended before parsing; anything else is parsed as is. -/
def signPermitParse (signature : List Char) : Except String SignatureData :=
  parseSignature (if signature.length = 132 then signature else signature ++ ['1', 'b'])

/-! ## Token amount formatting (src/utils/helpers.ts) -/

def isDigitChar (c : Char) : Bool :=
  48 ≤ c.toNat && c.toNat ≤ 57

/-- JS `String.prototype.replace(/0+$/, '')`: drop the trailing run of zeros. -/
def stripTrailingZeros (l : List Char) : List Char :=
  (l.reverse.dropWhile (fun c => c = '0')).reverse

/-- JS `String.prototype.split('.')`. -/
def jsSplitDot : List Char → List (List Char)
  | [] => [[]]
  | c :: rest =>
    match jsSplitDot rest with
    | [] => [[c]]
    | h :: t => if c = '.' then [] :: h :: t else (c :: h) :: t

def formatTokenAmount (amount : Nat) (decimals : Nat) : List Char :=
  let divisor := 10 ^ decimals
  let quotient := amount / divisor
  let remainder := amount % divisor
  if remainder = 0 then natToDec quotient
  else natToDec quotient ++ '.' :: stripTrailingZeros (jsPadStart (natToDec remainder) decimals '0')

/-- Value of a run of decimal digit characters (JS `BigInt(string)` on an
all-digits string). -/
def digitsToNat (l : List Char) : Nat :=
  l.foldl (fun acc c => 10 * acc + (c.toNat - 48)) 0

def parseTokenAmount (amount : List Char) (decimals : Nat) : Except String Nat :=
  let parts := jsSplitDot amount
  let integer := parts.headD []
  let fractional := (parts.drop 1).headD []
  if integer.isEmpty || !(integer.all isDigitChar) then
    .error ("Invalid amount format")
  else if !fractional.isEmpty && !(fractional.all isDigitChar) then
    .error ("Invalid amount format")
  else if decimals < fractional.length then
    .error (("Too many decimal places (max: " ++ String.mk (natToDec decimals)) ++ ")")
  else
    .ok (digitsToNat (integer ++ jsPadEnd fractional decimals '0'))

/-! ## Chain-read wrappers (src/core/gasless-sdk.ts, src/permit/eip2612.ts)

Each on-chain read is modelled by its outcome, an `Except String`
carrying either the value read or the underlying error message. -/

def getUserNonce (readNonce : Except String Nat) : Except String Nat :=
  match readNonce with
  | .ok n => .ok n
  | .error e => .error ("Failed to get user nonce: " ++ e)

def getTokenNonce (readNonces : Except String Nat) : Except String Nat :=
  match readNonces with
  | .ok n => .ok n
  | .error e => .error ("Failed to get token nonce: " ++ e)

structure TokenInfo where
  name : String
  symbol : String
  decimals : Nat
deriving DecidableEq

def getTokenInfo (readName readSymbol : Except String String)
    (readDecimals : Except String Nat) : Except String TokenInfo :=
  match readName, readSymbol, readDecimals with
  | .ok n, .ok s, .ok d => .ok ⟨n, s, d⟩
  | .error e, _, _ => .error ("Failed to get token info: " ++ e)
  | _, .error e, _ => .error ("Failed to get token info: " ++ e)
  | _, _, .error e => .error ("Failed to get token info: " ++ e)

/-- The on-chain `eip712Domain()` tuple; `getTokenVersion` reads component
index 2 (the version string). -/
structure OnchainEip712Domain where
  fieldsByte : Nat
  name : String
  version : String
  chainId : Nat
  verifyingContract : Nat
  salt : List Nat
  extensions : List Nat

/-- `getTokenVersion`: try `version()`; on failure try `eip712Domain()`;
on failure of both, fall back to the constant "1". -/
def getTokenVersion (readVersion : Except String String)
    (readDomain : Except String OnchainEip712Domain) : Except String String :=
  match readVersion with
  | .ok v => .ok v
  | .error _ =>
    match readDomain with
    | .ok d => .ok d.version
    | .error _ => .ok "1"

/-! ## Configuration resolution (src/config/chains.ts, GaslessSDK constructor) -/

inductive ChainPreset
  | mantleSepolia
deriving DecidableEq

inductive Environment
  | production
  | staging
  | development
  | localEnv
  | test
deriving DecidableEq

structure EnvironmentUrls where
  production : String
  staging : String
  development : String
  localEnv : String
  test : String
deriving DecidableEq

def RELAYER_URLS : ChainPreset → EnvironmentUrls
  | .mantleSepolia =>
    { production := "https://gasless-relayer-sepolia.mantle.com",
      staging := "https://gasless-relayer-sepolia-staging.mantle.com",
      development := "https://gasless-relayer-sepolia-dev.mantle.com",
      localEnv := "http://localhost:3001",
      test := "http://localhost:3001" }

def envUrl (u : EnvironmentUrls) : Environment → String
  | .production => u.production
  | .staging => u.staging
  | .development => u.development
  | .localEnv => u.localEnv
  | .test => u.test

structure ChainConfig where
  chainId : Nat
  rpcUrl : String
  gaslessRelayerAddress : String
  relayerServiceUrl : String
deriving DecidableEq

def createChainConfig (preset : ChainPreset) (environment : Environment) : ChainConfig :=
  match preset with
  | .mantleSepolia =>
    { chainId := 5003,
      rpcUrl := "https://rpc.sepolia.mantle.xyz",
      gaslessRelayerAddress := "0xc500592C002a23EeeB4e93CCfBA60B4c2683fDa9",
      relayerServiceUrl := envUrl (RELAYER_URLS preset) environment }

def CHAIN_CONFIGS (preset : ChainPreset) : ChainConfig :=
  createChainConfig preset .production

/-- `getChainConfig(preset, environment?)`; with the typed preset the
unsupported-preset throw is unreachable, so the result is total. -/
def getChainConfig (preset : ChainPreset) (environment : Option Environment) : ChainConfig :=
  match environment with
  | some env => createChainConfig preset env
  | none => CHAIN_CONFIGS preset

structure GaslessConfig where
  chainPreset : Option ChainPreset
  environment : Option Environment
  chainId : Option Nat
  rpcUrl : Option String
  gaslessRelayerAddress : Option String
  relayerServiceUrl : Option String
  localRelayerUrl : Option String
deriving DecidableEq

structure ResolvedConfig where
  chainId : Nat
  rpcUrl : String
  gaslessRelayerAddress : String
  relayerServiceUrl : String
  environment : Environment
deriving DecidableEq

/-- JS truthiness of an optional number (`undefined` and 0 are falsy). -/
def jsFalsyNat (x : Option Nat) : Bool :=
  x.getD 0 == 0

/-- JS truthiness of an optional string (`undefined` and "" are falsy). -/
def jsFalsyStr (x : Option String) : Bool :=
  x.getD "" == ""

/-- JS nullish coalescing `a ?? b` on optional values. -/
def jsNullish {α : Type} (a : Option α) (b : Option α) : Option α :=
  match a with
  | some v => some v
  | none => b

def resolveConfig (config : GaslessConfig) : Except String ResolvedConfig :=
  let environment := config.environment.getD .production
  match config.chainPreset with
  | some preset =>
    let chainConfig := getChainConfig preset (some environment)
    let relayerServiceUrl :=
      (jsNullish config.relayerServiceUrl config.localRelayerUrl).getD chainConfig.relayerServiceUrl
    .ok { chainId := config.chainId.getD chainConfig.chainId,
          rpcUrl := config.rpcUrl.getD chainConfig.rpcUrl,
          gaslessRelayerAddress := config.gaslessRelayerAddress.getD chainConfig.gaslessRelayerAddress,
          relayerServiceUrl := relayerServiceUrl,
          environment := environment }
  | none =>
    if jsFalsyNat config.chainId || jsFalsyStr config.rpcUrl ||
        jsFalsyStr config.gaslessRelayerAddress then
      .error ("When not using a preset, chainId, rpcUrl, and gaslessRelayerAddress are required")
    else
      .ok { chainId := config.chainId.getD 0,
            rpcUrl := config.rpcUrl.getD "",
            gaslessRelayerAddress := config.gaslessRelayerAddress.getD "",
            relayerServiceUrl := (jsNullish config.relayerServiceUrl config.localRelayerUrl).getD "",
            environment := environment }

/-! ## Transfer orchestration (GaslessSDK.transferGasless)

The wallet and HTTP collaborators are modelled by their outcomes: each
chain read and signing call is an `Except String` value (or function) in
the context, and a successful run returns the JSON envelope that would
be POSTed to the relayer service. -/

structure MetaTransfer where
  owner : Nat
  token : Nat
  recipient : Nat
  amount : Nat
  fee : Nat
  nonce : Nat
  deadline : Nat
deriving DecidableEq

structure EIP2612Permit where
  owner : Nat
  spender : Nat
  value : Nat
  nonce : Nat
  deadline : Nat
deriving DecidableEq

structure PermitData where
  value : Nat
  deadline : Nat
  v : Option Nat
  r : List Char
  s : List Char
deriving DecidableEq

structure GaslessTransferParams where
  token : Nat
  /-- The source names this field `to` (a Lean keyword). -/
  toAddr : Nat
  amount : Nat
  fee : Option Nat
  deadline : Option Nat
deriving DecidableEq

/-- JS `x || dflt` on an optional bigint (0n is falsy). -/
def jsOrBigint (x : Option Nat) (dflt : Nat) : Nat :=
  match x with
  | some v => if v = 0 then dflt else v
  | none => dflt

/-- The JSON envelope POSTed to `{relayerServiceUrl}/relay-transaction`. -/
structure TransferRequestBody where
  metaTx : MetaTransfer
  permitData : PermitData
  signature : List Char
  chainId : Nat
  userAddress : Nat
  timestamp : Nat
  userSignature : List Char
deriving DecidableEq

def createPermitDomain (tokenAddress : Nat) (chainId : Nat) (tokenName : String)
    (tokenVersion : String := "1") : EIP712Domain :=
  { name := tokenName,
    version := tokenVersion,
    chainId := chainId,
    verifyingContract := tokenAddress }

/-- `signPermit`: requires an account, delegates to the wallet's typed-data
signing (modelled by its outcome), then parses the returned signature with
the 64-byte `1b` fixup. -/
def signPermit (account : Option Nat) (walletSig : Except String (List Char))
    (_domain : EIP712Domain) (permit : EIP2612Permit) : Except String PermitData :=
  match account with
  | none => .error ("Wallet client must have an account")
  | some _ =>
    match walletSig with
    | .error e => .error e
    | .ok signature =>
      match signPermitParse signature with
      | .error e => .error e
      | .ok sd => .ok { value := permit.value, deadline := permit.deadline,
                        v := sd.v, r := sd.r, s := sd.s }

structure TransferCtx where
  account : Option Nat
  now : Nat
  readUserNonce : Except String Nat
  readTokenNonce : Except String Nat
  readTokenName : Except String String
  readTokenSymbol : Except String String
  readTokenDecimals : Except String Nat
  signTypedDataPermit : Except String (List Char)
  signMessage : List Nat → Except String (List Char)
  signMessageAuth : Except String (List Char)
  chainId : Nat
  gaslessRelayerAddress : Nat
  relayerServiceUrl : String

/-- `GaslessSDK.transferGasless`: wallet check, deadline/fee defaulting,
chain reads, payload construction, permit and meta-transfer signing, then
submission to the relayer service (no local deadline-expiry check appears
in the source). -/
def transferGasless (ctx : TransferCtx) (params : GaslessTransferParams) :
    Except String TransferRequestBody :=
  match ctx.account with
  | none => .error ("Wallet client not set or no account available")
  | some userAddress =>
    let deadline := jsOrBigint params.deadline (ctx.now + 3600)
    let fee := jsOrBigint params.fee 0
    match getUserNonce ctx.readUserNonce with
    | .error e => .error e
    | .ok userNonce =>
      match getTokenNonce ctx.readTokenNonce with
      | .error e => .error e
      | .ok tokenNonce =>
        match getTokenInfo ctx.readTokenName ctx.readTokenSymbol ctx.readTokenDecimals with
        | .error e => .error e
        | .ok tokenInfo =>
          let metaTx : MetaTransfer :=
            { owner := userAddress, token := params.token, recipient := params.toAddr,
              amount := params.amount, fee := fee, nonce := userNonce, deadline := deadline }
          let permitRequest : EIP2612Permit :=
            { owner := userAddress, spender := ctx.gaslessRelayerAddress,
              value := params.amount + fee, nonce := tokenNonce, deadline := deadline }
          let permitDomain := createPermitDomain params.token ctx.chainId tokenInfo.name
          let relayerDomain : EIP712Domain :=
            { name := "GaslessRelayer", version := "1", chainId := ctx.chainId,
              verifyingContract := ctx.gaslessRelayerAddress }
          match signPermit ctx.account ctx.signTypedDataPermit permitDomain permitRequest with
          | .error e => .error e
          | .ok permitData =>
            let metaTxHash :=
              createMetaTransferHash relayerDomain
                { owner := metaTx.owner, token := metaTx.token, recipient := metaTx.recipient,
                  amount := metaTx.amount, fee := metaTx.fee, deadline := metaTx.deadline,
                  nonce := metaTx.nonce }
            match ctx.signMessage metaTxHash with
            | .error e => .error e
            | .ok metaTxSignature =>
              if ctx.relayerServiceUrl ≠ "" then
                match ctx.signMessageAuth with
                | .error e => .error ("Relayer service error: " ++ e)
                | .ok userSignature =>
                  .ok { metaTx := metaTx, permitData := permitData,
                        signature := metaTxSignature, chainId := ctx.chainId,
                        userAddress := userAddress, timestamp := ctx.now,
                        userSignature := userSignature }
              else
                .error ("No relayer service URL configured. Please ensure your backend relayer service is running.")


/-! ## Concrete test vectors and spec-side definitions -/

/-- Modelled from the spec: the EIP-712 final-hash preimage
`0x19 || 0x01 || domainSeparator || structHash`, a 66-byte packed
concatenation with no padding between components. -/
def packedFinalPreimage (domainSeparator structHash : List Nat) : List Nat :=
  0x19 :: 0x01 :: (domainSeparator ++ structHash)

/-- The relayer contract domain used by `transferGasless` (values of the
repository's own EIP-712 validation test). -/
def exRelayerDomain : EIP712Domain :=
  { name := "GaslessRelayer", version := "1", chainId := 5003,
    verifyingContract := 0xc500592C002a23EeeB4e93CCfBA60B4c2683fDa9 }

/-- The meta-transfer of the repository's EIP-712 validation test. -/
def exMetaTransfer : EIP712MetaTransfer :=
  { owner := 0x3Ea837526E43C828433FDde7a5A46D71B54E765b,
    token := 0x0A527504d9Bc26189A51DB8a7D6957D1C4275e05,
    recipient := 0x5a63721c458f41cD99499857c1Fe4B17B2582bB7,
    amount := 1000000, fee := 0, deadline := 1755890553, nonce := 0 }

/-- A valid 65-byte signature whose recovery byte is 0x00. -/
def exSigV0 : List Char := '0' :: 'x' :: (List.replicate 128 '1' ++ ['0', '0'])

/-- A valid 65-byte signature whose v byte is written with an uppercase
hex digit (0x1C = 28). -/
def exSigUpperC : List Char := '0' :: 'x' :: (List.replicate 128 '1' ++ ['1', 'C'])

/-- The decoded components of `exSigUpperC`. -/
def exSigUpperParsed : SignatureData :=
  { v := some 28, r := '0' :: 'x' :: List.replicate 64 '1',
    s := '0' :: 'x' :: List.replicate 64 '1' }

/-- A constructor config that supplies all three custom fields, but with
`chainId = 0` (present yet falsy). -/
def exConfigFalsy : GaslessConfig :=
  { chainPreset := none, environment := none, chainId := some 0,
    rpcUrl := some "http://localhost:8545",
    gaslessRelayerAddress := some "0xc500592C002a23EeeB4e93CCfBA60B4c2683fDa9",
    relayerServiceUrl := none, localRelayerUrl := none }

/-- A 65-byte wallet signature used by the orchestrator examples. -/
def exSigHex : List Char := '0' :: 'x' :: (List.replicate 128 'a' ++ ['1', 'b'])

/-- An orchestrator context whose wallet is connected, whose chain reads
and signing calls all succeed, and whose relayer URL is configured. -/
def exTransferCtx : TransferCtx :=
  { account := some 0x3Ea837526E43C828433FDde7a5A46D71B54E765b,
    now := 1755890553,
    readUserNonce := .ok 0, readTokenNonce := .ok 0,
    readTokenName := .ok "USD Coin", readTokenSymbol := .ok "USDC",
    readTokenDecimals := .ok 6,
    signTypedDataPermit := .ok exSigHex,
    signMessage := fun _ => .ok exSigHex,
    signMessageAuth := .ok exSigHex,
    chainId := 5003,
    gaslessRelayerAddress := 0xc500592C002a23EeeB4e93CCfBA60B4c2683fDa9,
    relayerServiceUrl := "https://gasless-relayer-sepolia.mantle.com" }

/-- Transfer parameters whose caller-supplied deadline (5) lies far in
the past relative to `exTransferCtx.now`. -/
def exExpiredParams : GaslessTransferParams :=
  { token := 0x0A527504d9Bc26189A51DB8a7D6957D1C4275e05,
    toAddr := 0x5a63721c458f41cD99499857c1Fe4B17B2582bB7,
    amount := 1000000, fee := some 0, deadline := some 5 }

/-- Lowercase hex rendering of one byte (as viem renders signatures). -/
def byteToHexChars (b : Nat) : List Char :=
  [hexDigitChar (b / 16), hexDigitChar (b % 16)]

/-- Lowercase hex rendering of a byte string. -/
def hexOfBytes (bytes : List Nat) : List Char :=
  (bytes.map byteToHexChars).flatten

/-- A lowercase hex digit: 0-9 or a-f. -/
def isLowerHexDigit (c : Char) : Bool :=
  isDigitChar c || (97 ≤ c.toNat && c.toNat ≤ 102)

/-!
# Supporting lemmas
-/

theorem leBytes_length (k n : Nat) : (leBytes k n).length = k := by
  induction k generalizing n with
  | zero => rfl
  | succ k ih => simp [leBytes, ih]

theorem beBytes_length (k n : Nat) : (beBytes k n).length = k := by
  simp [beBytes, leBytes_length]

theorem keccak256_length (msg : List Nat) : (keccak256 msg).length = 32 := by
  simp [keccak256, leBytes_length]


theorem natToDecAux_congr :
    ∀ (n f1 f2 : Nat), n < f1 → n < f2 → natToDecAux f1 n = natToDecAux f2 n := by
  intro n
  induction n using Nat.strong_induction_on with
  | _ n ih =>
    intro f1 f2 h1 h2
    match f1, f2 with
    | g1 + 1, g2 + 1 =>
      simp only [natToDecAux]
      by_cases h10 : n < 10
      · simp [h10]
      · have hdiv : n / 10 < n := Nat.div_lt_self (by omega) (by omega)
        simp only [h10, if_false]
        rw [ih (n / 10) hdiv g1 (n / 10 + 1) (by omega) (by omega),
          ih (n / 10) hdiv g2 (n / 10 + 1) (by omega) (by omega)]

theorem natToDec_eq (n : Nat) :
    natToDec n = if n < 10 then [Char.ofNat (48 + n)]
      else natToDec (n / 10) ++ [Char.ofNat (48 + n % 10)] := by
  show natToDecAux (n + 1) n = _
  by_cases h10 : n < 10
  · simp [natToDecAux, h10]
  · have hdiv : n / 10 < n := Nat.div_lt_self (by omega) (by omega)
    simp only [natToDecAux, h10, if_false]
    rw [natToDecAux_congr (n / 10) n (n / 10 + 1) (by omega) (by omega)]
    rfl

theorem natToHexAux_congr :
    ∀ (n f1 f2 : Nat), n < f1 → n < f2 → natToHexAux f1 n = natToHexAux f2 n := by
  intro n
  induction n using Nat.strong_induction_on with
  | _ n ih =>
    intro f1 f2 h1 h2
    match f1, f2 with
    | g1 + 1, g2 + 1 =>
      simp only [natToHexAux]
      by_cases h16 : n < 16
      · simp [h16]
      · have hdiv : n / 16 < n := Nat.div_lt_self (by omega) (by omega)
        simp only [h16, if_false]
        rw [ih (n / 16) hdiv g1 (n / 16 + 1) (by omega) (by omega),
          ih (n / 16) hdiv g2 (n / 16 + 1) (by omega) (by omega)]

theorem natToHex_eq (n : Nat) :
    natToHex n = if n < 16 then [hexDigitChar n]
      else natToHex (n / 16) ++ [hexDigitChar (n % 16)] := by
  show natToHexAux (n + 1) n = _
  by_cases h16 : n < 16
  · simp [natToHexAux, h16]
  · have hdiv : n / 16 < n := Nat.div_lt_self (by omega) (by omega)
    simp only [natToHexAux, h16, if_false]
    rw [natToHexAux_congr (n / 16) n (n / 16 + 1) (by omega) (by omega)]
    rfl

/-!
# Claim theorems
-/

/-- Claim C1: the claim states that `createMetaTransferHash` hashes the
66-byte packed preimage 0x19 || 0x01 || domainSeparator || structHash.
The code instead hashes the 128-byte `encodeAbiParameters` rendering, in
which each `bytes1` component is padded to a full 32-byte word; at the
repository's own test vector the hashed preimage has length 128, not 66,
and differs from the packed preimage. -/
theorem c1_final_hash_padded_preimage :
    createMetaTransferHash exRelayerDomain exMetaTransfer =
      keccak256 (encodeAbiParameters
        [.bytes1 0x19, .bytes1 0x01,
         .bytes32 (createDomainSeparator exRelayerDomain),
         .bytes32 (keccak256 (encodeMetaTransferData exMetaTransfer))]) ∧
    (encodeAbiParameters
      [.bytes1 0x19, .bytes1 0x01,
       .bytes32 (createDomainSeparator exRelayerDomain),
       .bytes32 (keccak256 (encodeMetaTransferData exMetaTransfer))]).length = 128 ∧
    (packedFinalPreimage (createDomainSeparator exRelayerDomain)
      (keccak256 (encodeMetaTransferData exMetaTransfer))).length = 66 ∧
    encodeAbiParameters
      [.bytes1 0x19, .bytes1 0x01,
       .bytes32 (createDomainSeparator exRelayerDomain),
       .bytes32 (keccak256 (encodeMetaTransferData exMetaTransfer))] ≠
      packedFinalPreimage (createDomainSeparator exRelayerDomain)
        (keccak256 (encodeMetaTransferData exMetaTransfer)) := by
  refine ⟨rfl, ?_, ?_, ?_⟩
  · simp [encodeAbiParameters, abiWord, createDomainSeparator, keccak256_length]
  · simp [packedFinalPreimage, createDomainSeparator, keccak256_length]
  · intro h
    have hl := congrArg List.length h
    simp [encodeAbiParameters, abiWord, createDomainSeparator, keccak256_length,
      packedFinalPreimage] at hl

/-- Claim C2: the claim states that the type-hash string and the struct
encoding put `nonce` before `deadline`, matching the on-chain struct of
`executeMetaTransfer`.  The relayer service's `GASLESS_ABI` does declare
nonce before deadline, but the source's type string and
`encodeMetaTransferData` put deadline before nonce: at the test vector
(nonce 0, deadline 1755890553) word 6 of the encoding is the deadline
and word 7 the nonce, not the other way round. -/
theorem c2_field_order_mismatch :
    typeStringOfComponents "MetaTransfer" gaslessAbiMetaTransferComponents =
      "MetaTransfer(address owner,address token,address recipient,uint256 amount,uint256 fee,uint256 nonce,uint256 deadline)" ∧
    metaTransferTypeString ≠
      typeStringOfComponents "MetaTransfer" gaslessAbiMetaTransferComponents ∧
    encodeMetaTransferData exMetaTransfer =
      META_TRANSFER_TYPEHASH ++ beBytes 32 0x3Ea837526E43C828433FDde7a5A46D71B54E765b ++
        beBytes 32 0x0A527504d9Bc26189A51DB8a7D6957D1C4275e05 ++
        beBytes 32 0x5a63721c458f41cD99499857c1Fe4B17B2582bB7 ++
        beBytes 32 1000000 ++ beBytes 32 0 ++ beBytes 32 1755890553 ++ beBytes 32 0 ∧
    encodeMetaTransferData exMetaTransfer ≠
      META_TRANSFER_TYPEHASH ++ beBytes 32 0x3Ea837526E43C828433FDde7a5A46D71B54E765b ++
        beBytes 32 0x0A527504d9Bc26189A51DB8a7D6957D1C4275e05 ++
        beBytes 32 0x5a63721c458f41cD99499857c1Fe4B17B2582bB7 ++
        beBytes 32 1000000 ++ beBytes 32 0 ++ beBytes 32 0 ++ beBytes 32 1755890553 := by
  refine ⟨by decide, by decide, ?_, ?_⟩
  · simp [encodeMetaTransferData, encodeAbiParameters, abiWord, exMetaTransfer,
      List.append_assoc, Nat.mod_eq_of_lt]
  · intro h
    simp only [encodeMetaTransferData, encodeAbiParameters, abiWord, exMetaTransfer,
      List.map_cons, List.map_nil, List.flatten_cons, List.flatten_nil,
      List.append_assoc] at h
    have h2 := congrArg (List.drop META_TRANSFER_TYPEHASH.length) h
    rw [List.drop_left, List.drop_left] at h2
    revert h2
    decide

/-- Claim C3 counterexample: a valid 65-byte signature whose recovery
byte is 0x00 decodes (in both codec entry points) to v = 0, which is
neither 27 nor 28 — the codec performs no 0/1 to 27/28 normalization. -/
theorem c3_counterexample :
    parseSignature exSigV0 =
      .ok { v := some 0, r := '0' :: 'x' :: List.replicate 64 '1',
            s := '0' :: 'x' :: List.replicate 64 '1' } ∧
    hexToSignature exSigV0 =
      .ok { v := some 0, r := '0' :: 'x' :: List.replicate 64 '1',
            s := '0' :: 'x' :: List.replicate 64 '1' } ∧
    ¬ (some 0 = some 27 ∨ (some 0 : Option Nat) = some 28) := by
  decide

/-- Claim C4 counterexample: a valid 65-byte signature whose v byte is
written `1C` decodes successfully, but re-encoding lowercases the v byte,
so `encode (decode x) ≠ x` for both codec pairs. -/
theorem c4_counterexample :
    parseSignature exSigUpperC = .ok exSigUpperParsed ∧
    formatSignature exSigUpperParsed ≠ exSigUpperC ∧
    hexToSignature exSigUpperC = .ok exSigUpperParsed ∧
    signatureToHex exSigUpperParsed ≠ exSigUpperC := by
  decide

/-- Claim C6: `createDomainSeparator` computes
keccak256(abi.encode(DOMAIN_TYPEHASH, keccak256(name), keccak256(version),
chainId, verifyingContract)) — five consecutive 32-byte words — and is a
pure function of the four domain fields. -/
theorem c6_domain_separator :
    (∀ domain : EIP712Domain,
      createDomainSeparator domain =
        keccak256 (EIP712_DOMAIN_TYPEHASH ++ keccak256 (strBytes domain.name) ++
          keccak256 (strBytes domain.version) ++ beBytes 32 (domain.chainId % 2 ^ 256) ++
          beBytes 32 (domain.verifyingContract % 2 ^ 160))) ∧
    (∀ d1 d2 : EIP712Domain, d1.name = d2.name → d1.version = d2.version →
      d1.chainId = d2.chainId → d1.verifyingContract = d2.verifyingContract →
      createDomainSeparator d1 = createDomainSeparator d2) := by
  constructor
  · intro domain
    simp [createDomainSeparator, encodeAbiParameters, abiWord, List.append_assoc]
  · intro d1 d2 h1 h2 h3 h4
    cases d1
    cases d2
    simp only at h1 h2 h3 h4
    subst h1 h2 h3 h4
    rfl

/-- Witness for C6 at the relayer domain of the repository's test. -/
theorem c6_domain_separator_witness :
    createDomainSeparator exRelayerDomain =
      keccak256 (EIP712_DOMAIN_TYPEHASH ++ keccak256 (strBytes exRelayerDomain.name) ++
        keccak256 (strBytes exRelayerDomain.version) ++
        beBytes 32 (exRelayerDomain.chainId % 2 ^ 256) ++
        beBytes 32 (exRelayerDomain.verifyingContract % 2 ^ 160)) ∧
    createDomainSeparator exRelayerDomain =
      createDomainSeparator
        { name := "GaslessRelayer", version := "1", chainId := 5000 + 3,
          verifyingContract := 0xc500592C002a23EeeB4e93CCfBA60B4c2683fDa9 } :=
  ⟨c6_domain_separator.1 exRelayerDomain,
   c6_domain_separator.2 exRelayerDomain _ rfl rfl (by decide) rfl⟩

/-- Claim C7 counterexample: with a connected wallet, successful reads
and signing, and a configured relayer URL, `transferGasless` accepts a
deadline of 5 that lies far before the current time 1755890553 and still
produces the POST envelope — no local expiry check blocks submission. -/
theorem c7_counterexample :
    (∃ body, transferGasless exTransferCtx exExpiredParams = .ok body ∧
      body.metaTx.deadline = 5) ∧ 5 < exTransferCtx.now :=
  ⟨⟨_, rfl, rfl⟩, by decide⟩

/-- Claim C8 counterexample: when both the `version()` read and the
`eip712Domain()` read fail, `getTokenVersion` silently returns the
fallback value "1" instead of re-throwing a wrapped error. -/
theorem c8_counterexample :
    getTokenVersion (.error ("version() reverted")) (.error ("eip712Domain() reverted")) =
      .ok "1" := rfl

/-- Claim C8 as amended: user-nonce, token-nonce and token-metadata read
failures are wrapped with the operation context and re-thrown, while
token-version read failures are swallowed — `getTokenVersion` falls back
to `eip712Domain()` and then to the constant "1". -/
theorem c8_read_error_propagation :
    (∀ e : String, getUserNonce (.error e) = .error ("Failed to get user nonce: " ++ e)) ∧
    (∀ n : Nat, getUserNonce (.ok n) = .ok n) ∧
    (∀ e : String, getTokenNonce (.error e) = .error ("Failed to get token nonce: " ++ e)) ∧
    (∀ n : Nat, getTokenNonce (.ok n) = .ok n) ∧
    (∀ (e : String) (rs : Except String String) (rd : Except String Nat),
      getTokenInfo (.error e) rs rd = .error ("Failed to get token info: " ++ e)) ∧
    (∀ (nm e : String) (rd : Except String Nat),
      getTokenInfo (.ok nm) (.error e) rd = .error ("Failed to get token info: " ++ e)) ∧
    (∀ nm sy e : String,
      getTokenInfo (.ok nm) (.ok sy) (.error e) = .error ("Failed to get token info: " ++ e)) ∧
    (∀ e1 e2 : String, getTokenVersion (.error e1) (.error e2) = .ok "1") ∧
    (∀ (e : String) (d : OnchainEip712Domain),
      getTokenVersion (.error e) (.ok d) = .ok d.version) := by
  refine ⟨fun e => rfl, fun n => rfl, fun e => rfl, fun n => rfl, ?_, ?_, ?_,
    fun e1 e2 => rfl, fun e d => rfl⟩
  · intro e rs rd
    cases rs <;> cases rd <;> rfl
  · intro nm e rd
    cases rd <;> rfl
  · intro nm sy e
    rfl

/-- Claim C10 counterexample: with no preset and all three custom fields
supplied — but `chainId = 0` — the constructor still throws, so it does
not throw exactly when a field is missing. -/
theorem c10_counterexample :
    resolveConfig exConfigFalsy =
      .error ("When not using a preset, chainId, rpcUrl, and gaslessRelayerAddress are required") ∧
    exConfigFalsy.chainPreset = none ∧
    exConfigFalsy.chainId ≠ none ∧ exConfigFalsy.rpcUrl ≠ none ∧
    exConfigFalsy.gaslessRelayerAddress ≠ none := by
  decide


theorem charOfNat_digit_toNat : ∀ m : Nat, m < 10 → (Char.ofNat (48 + m)).toNat = 48 + m := by
  decide

theorem natToDec_digits (n : Nat) : ∀ c ∈ natToDec n, isDigitChar c = true := by
  induction n using Nat.strong_induction_on with
  | _ n ih =>
    rw [natToDec_eq]
    by_cases h10 : n < 10
    · simp only [h10, if_true, List.mem_singleton]
      intro c hc
      subst hc
      simp [isDigitChar, charOfNat_digit_toNat n h10]
      omega
    · have hdiv : n / 10 < n := Nat.div_lt_self (by omega) (by omega)
      simp only [h10, if_false, List.mem_append, List.mem_singleton]
      rintro c (hc | hc)
      · exact ih (n / 10) hdiv c hc
      · subst hc
        have hm : n % 10 < 10 := Nat.mod_lt _ (by omega)
        simp [isDigitChar, charOfNat_digit_toNat _ hm]
        omega

theorem natToDec_ne_nil (n : Nat) : natToDec n ≠ [] := by
  rw [natToDec_eq]
  by_cases h10 : n < 10 <;> simp [h10]

theorem digitsToNat_shift (b : List Char) (init : Nat) :
    b.foldl (fun acc c => 10 * acc + (c.toNat - 48)) init =
      init * 10 ^ b.length + digitsToNat b := by
  induction b generalizing init with
  | nil => simp [digitsToNat]
  | cons c b ih =>
    simp only [List.foldl_cons, List.length_cons, digitsToNat, Nat.mul_zero, Nat.zero_add]
    rw [ih, ih (c.toNat - 48)]
    ring

theorem digitsToNat_append (a b : List Char) :
    digitsToNat (a ++ b) = digitsToNat a * 10 ^ b.length + digitsToNat b := by
  simp only [digitsToNat, List.foldl_append]
  rw [digitsToNat_shift]
  rfl

theorem digitsToNat_natToDec (n : Nat) : digitsToNat (natToDec n) = n := by
  induction n using Nat.strong_induction_on with
  | _ n ih =>
    rw [natToDec_eq]
    by_cases h10 : n < 10
    · simp only [h10, if_true, digitsToNat, List.foldl_cons, List.foldl_nil]
      rw [charOfNat_digit_toNat n h10]
      omega
    · have hdiv : n / 10 < n := Nat.div_lt_self (by omega) (by omega)
      simp only [h10, if_false]
      rw [digitsToNat_append, ih (n / 10) hdiv]
      have hm : n % 10 < 10 := Nat.mod_lt _ (by omega)
      simp only [digitsToNat, List.foldl_cons, List.foldl_nil, List.length_cons,
        List.length_nil, Nat.mul_zero, Nat.zero_add, pow_one]
      rw [charOfNat_digit_toNat _ hm]
      omega

theorem natToDec_length_le (k : Nat) : ∀ n, n < 10 ^ k → 1 ≤ k → (natToDec n).length ≤ k := by
  intro n
  induction n using Nat.strong_induction_on generalizing k with
  | _ n ih =>
    intro hn hk
    rw [natToDec_eq]
    by_cases h10 : n < 10
    · simp [h10, hk]
    · have hdiv : n / 10 < n := Nat.div_lt_self (by omega) (by omega)
      have hk2 : 2 ≤ k := by
        rcases Nat.lt_or_ge k 2 with hlt | hge
        · have hk1 : k = 1 := by omega
          subst hk1
          simp [pow_one] at hn
          omega
        · exact hge
      have hdivlt : n / 10 < 10 ^ (k - 1) := by
        rw [Nat.div_lt_iff_lt_mul (by omega)]
        calc n < 10 ^ k := hn
        _ = 10 ^ (k - 1) * 10 := by
          rw [← pow_succ]
          congr 1
          omega
      have := ih (n / 10) hdiv (k - 1) hdivlt (by omega)
      simp only [h10, if_false, List.length_append, List.length_cons, List.length_nil]
      omega

theorem hexDigitVal_hexDigitChar : ∀ k, k < 16 → hexDigitVal (hexDigitChar k) = some k := by
  decide

theorem hexDigitChar_ne_xX : ∀ k, k < 16 → hexDigitChar k ≠ 'x' ∧ hexDigitChar k ≠ 'X' := by
  decide

theorem jsParseIntHex_pair (a b : Nat) (ha : a < 16) (hb : b < 16) :
    jsParseIntHex [hexDigitChar a, hexDigitChar b] = some (16 * a + b) := by
  obtain ⟨hbx, hbX⟩ := hexDigitChar_ne_xX b hb
  have hcond : ¬ (hexDigitChar a = '0' ∧ (hexDigitChar b = 'x' ∨ hexDigitChar b = 'X')) := by
    rintro ⟨h0, hx | hX⟩
    · exact hbx hx
    · exact hbX hX
  simp only [jsParseIntHex]
  rw [if_neg hcond]
  simp only [List.takeWhile_cons, hexDigitVal_hexDigitChar a ha,
    hexDigitVal_hexDigitChar b hb, Option.isSome_some, List.takeWhile_nil,
    if_true, List.isEmpty_cons, List.foldl_cons, List.foldl_nil,
    Option.getD_some, if_false, Bool.false_eq_true]
  norm_num

theorem sigDecomp (m : List Char) (c1 c0 : Char) (hm : m.length = 128) :
    ('0' :: 'x' :: (m ++ [c1, c0])).length = 132 ∧
    ('0' :: 'x' :: (m ++ [c1, c0])).take 66 = '0' :: 'x' :: m.take 64 ∧
    (('0' :: 'x' :: (m ++ [c1, c0])).drop 66).take 64 = m.drop 64 ∧
    ('0' :: 'x' :: (m ++ [c1, c0])).drop 130 = [c1, c0] := by
  have hsplit1 : '0' :: 'x' :: (m ++ [c1, c0]) =
      ('0' :: 'x' :: m.take 64) ++ (m.drop 64 ++ [c1, c0]) := by
    simp only [List.cons_append, List.cons.injEq, true_and]
    rw [← List.append_assoc, List.take_append_drop]
  have hsplit2 : '0' :: 'x' :: (m ++ [c1, c0]) = ('0' :: 'x' :: m) ++ [c1, c0] := by
    simp
  have hlen1 : ('0' :: 'x' :: m.take 64).length = 66 := by
    simp [List.length_take, hm]
  have hlen2 : (m.drop 64).length = 64 := by
    simp [hm]
  refine ⟨by simp [hm], ?_, ?_, ?_⟩
  · rw [hsplit1, List.take_left' hlen1]
  · rw [hsplit1, List.drop_left' hlen1, List.take_left' hlen2]
  · rw [hsplit2, List.drop_left' (by simp [hm])]

theorem parseSignature_ok_form (sig : List Char) (h : sig.length = 132) :
    parseSignature sig =
      .ok { r := sig.take 66, s := '0' :: 'x' :: ((sig.drop 66).take 64),
            v := jsParseIntHex ((sig.drop 130).take 2) } := by
  rw [parseSignature, if_neg (by omega)]

theorem hexToSignature_ok_form (hex : List Char) (h : hex.length = 132) :
    hexToSignature hex =
      .ok { r := hex.take 66, s := '0' :: 'x' :: ((hex.drop 66).take 64),
            v := jsParseIntHex ((hex.drop 130).take 2) } := by
  rw [hexToSignature, if_neg (by omega)]

theorem isLowerHexDigit_val (c : Char) (h : isLowerHexDigit c = true) :
    ∃ k, k < 16 ∧ hexDigitVal c = some k ∧ hexDigitChar k = c := by
  simp only [isLowerHexDigit, isDigitChar, Bool.or_eq_true, Bool.and_eq_true,
    decide_eq_true_eq] at h
  rcases h with ⟨h1, h2⟩ | ⟨h1, h2⟩
  · refine ⟨c.toNat - 48, by omega, ?_, ?_⟩
    · rw [hexDigitVal, if_pos (by omega)]
    · rw [hexDigitChar, if_pos (by omega),
        show 48 + (c.toNat - 48) = c.toNat by omega, Char.ofNat_toNat]
  · refine ⟨c.toNat - 87, by omega, ?_, ?_⟩
    · rw [hexDigitVal, if_neg (by omega), if_pos (by omega)]
    · rw [hexDigitChar, if_neg (by omega),
        show 87 + (c.toNat - 87) = c.toNat by omega, Char.ofNat_toNat]

theorem natToHex_pad_two (a b : Nat) (ha : a < 16) (hb : b < 16) :
    jsPadStart (natToHex (16 * a + b)) 2 '0' = [hexDigitChar a, hexDigitChar b] := by
  by_cases ha0 : a = 0
  · subst ha0
    rw [show 16 * 0 + b = b by omega, natToHex_eq, if_pos hb]
    simp only [jsPadStart, List.length_cons, List.length_nil]
    rw [show (2 - 1 : Nat) = 1 by omega]
    simp only [List.replicate, List.cons_append, List.nil_append]
    rw [show ('0' : Char) = hexDigitChar 0 by decide]
  · rw [natToHex_eq, if_neg (by omega),
      show (16 * a + b) / 16 = a by omega, show (16 * a + b) % 16 = b by omega,
      natToHex_eq, if_pos ha]
    simp [jsPadStart]

theorem hexOfBytes_append (a b : List Nat) :
    hexOfBytes (a ++ b) = hexOfBytes a ++ hexOfBytes b := by
  simp [hexOfBytes]

theorem hexOfBytes_length (l : List Nat) : (hexOfBytes l).length = 2 * l.length := by
  induction l with
  | nil => rfl
  | cons b t ih =>
    simp only [hexOfBytes, List.map_cons, List.flatten_cons, List.length_append,
      List.length_cons] at ih ⊢
    simp [byteToHexChars] at ih ⊢
    omega

/-- Claim C3 as amended: the codec performs no v normalization — a
65-byte signature whose recovery byte is 0x00 parses to v = 0 and is
re-emitted with the 00 byte unchanged; the only adjustment anywhere is
`signPermit` appending the byte 0x1b (v = 27) when the wallet returns a
64-byte (130-character) signature. -/
theorem c3_no_v_normalization :
    (∀ raw : List Char, raw.length = 130 →
      ∃ sd, signPermitParse raw = .ok sd ∧ sd.v = some 27) ∧
    (∀ m : List Char, m.length = 128 →
      ∃ sd, parseSignature ('0' :: 'x' :: (m ++ ['0', '0'])) = .ok sd ∧ sd.v = some 0 ∧
        formatSignature sd = '0' :: 'x' :: (m ++ ['0', '0'])) := by
  constructor
  · intro raw hraw
    have hlen : (raw ++ ['1', 'b']).length = 132 := by simp [hraw]
    have hdrop : (raw ++ ['1', 'b']).drop 130 = ['1', 'b'] := List.drop_left' hraw
    have hps : signPermitParse raw =
        .ok { r := (raw ++ ['1', 'b']).take 66,
              s := '0' :: 'x' :: (((raw ++ ['1', 'b']).drop 66).take 64),
              v := jsParseIntHex (((raw ++ ['1', 'b']).drop 130).take 2) } := by
      rw [signPermitParse, if_neg (by omega), parseSignature, if_neg (by omega)]
    refine ⟨_, hps, ?_⟩
    simp only [hdrop, List.take_succ_cons, List.take_nil, List.take_zero]
    rw [show ('1' : Char) = hexDigitChar 1 by decide,
      show ('b' : Char) = hexDigitChar 11 by decide,
      jsParseIntHex_pair 1 11 (by omega) (by omega)]
  · intro m hm
    obtain ⟨hlen, htake, hmid, hdrop⟩ := sigDecomp m '0' '0' hm
    refine ⟨_, parseSignature_ok_form _ hlen, ?_, ?_⟩
    · simp only [hdrop]
      decide
    · simp only [List.drop_succ_cons] at hmid
      simp only [formatSignature, htake, hmid, hdrop, List.take_succ_cons,
        List.take_nil, List.take_zero, List.drop_succ_cons, List.drop_zero]
      rw [show jsPadStart (jsNumToHexString (jsParseIntHex ['0', '0'])) 2 '0'
        = ['0', '0'] by decide]
      rw [List.take_append_drop]

/-- Witness for C3 at a 130-character raw wallet signature and at a
65-byte signature with v byte 00. -/
theorem c3_no_v_normalization_witness :
    (∃ sd, signPermitParse (List.replicate 130 'a') = .ok sd ∧ sd.v = some 27) ∧
    (∃ sd, parseSignature ('0' :: 'x' :: (List.replicate 128 '1' ++ ['0', '0'])) = .ok sd ∧
      sd.v = some 0 ∧
      formatSignature sd = '0' :: 'x' :: (List.replicate 128 '1' ++ ['0', '0'])) :=
  ⟨c3_no_v_normalization.1 (List.replicate 130 'a') (by simp),
   c3_no_v_normalization.2 (List.replicate 128 '1') (by simp)⟩

/-- Claim C4 as amended: for every valid 65-byte signature the decoded
components re-encode to the original string provided the two hex digits
of the v byte are lowercase (digits 0-9 or a-f); the r and s slices are
copied verbatim, and only the v byte is re-rendered (in lowercase) by
the encoder.  This holds for both codec pairs. -/
theorem c4_roundtrip_lowercase_v :
    ∀ x : List Char, x.length = 132 → x.take 2 = ['0', 'x'] →
      (∀ c ∈ x.drop 2, (hexDigitVal c).isSome = true) →
      (∀ c ∈ x.drop 130, isLowerHexDigit c = true) →
      ∃ sd, parseSignature x = .ok sd ∧ formatSignature sd = x ∧
        hexToSignature x = .ok sd ∧ signatureToHex sd = x := by
  intro x hlen htake2 _hhex hlower
  match x, hlen with
  | c0 :: c1 :: t, hlen =>
    simp only [List.take_succ_cons, List.take_zero, List.cons.injEq, and_true] at htake2
    obtain ⟨rfl, rfl, -⟩ := htake2
    have htlen : t.length = 130 := by simpa using hlen
    have hm : (t.take 128).length = 128 := by simp [htlen]
    obtain ⟨d1, d0, hrest⟩ :=
      List.length_eq_two.mp (show (t.drop 128).length = 2 by simp [htlen])
    have hx : ('0' : Char) :: 'x' :: t = '0' :: 'x' :: (t.take 128 ++ [d1, d0]) := by
      rw [← hrest, List.take_append_drop]
    obtain ⟨hlen132, htake, hmid, hdrop⟩ := sigDecomp (t.take 128) d1 d0 hm
    rw [hx]
    rw [hx, hdrop] at hlower
    obtain ⟨a, ha16, haval, hachar⟩ := isLowerHexDigit_val d1 (hlower d1 (by simp))
    obtain ⟨b, hb16, hbval, hbchar⟩ := isLowerHexDigit_val d0 (hlower d0 (by simp))
    have hv : jsParseIntHex [d1, d0] = some (16 * a + b) := by
      rw [← hachar, ← hbchar]
      exact jsParseIntHex_pair a b ha16 hb16
    have hpad : jsPadStart (jsNumToHexString (some (16 * a + b))) 2 '0' = [d1, d0] := by
      rw [jsNumToHexString, natToHex_pad_two a b ha16 hb16, hachar, hbchar]
    refine ⟨_, parseSignature_ok_form _ hlen132, ?_, hexToSignature_ok_form _ hlen132, ?_⟩
    · simp only [List.drop_succ_cons] at hmid
      simp only [formatSignature, htake, hmid, hdrop, List.take_succ_cons,
        List.take_nil, List.take_zero, List.drop_succ_cons, List.drop_zero, hv, hpad,
        List.take_append_drop]
    · simp only [List.drop_succ_cons] at hmid
      simp only [signatureToHex, htake, hmid, hdrop, List.take_succ_cons,
        List.take_nil, List.take_zero, List.drop_succ_cons, List.drop_zero, hv, hpad,
        List.take_append_drop]

/-- Witness for C4 at a valid all-lowercase 65-byte signature. -/
theorem c4_roundtrip_lowercase_v_witness :
    ∃ sd, parseSignature ('0' :: 'x' :: (List.replicate 128 '1' ++ ['1', 'b'])) = .ok sd ∧
      formatSignature sd = '0' :: 'x' :: (List.replicate 128 '1' ++ ['1', 'b']) ∧
      hexToSignature ('0' :: 'x' :: (List.replicate 128 '1' ++ ['1', 'b'])) = .ok sd ∧
      signatureToHex sd = '0' :: 'x' :: (List.replicate 128 '1' ++ ['1', 'b']) :=
  c4_roundtrip_lowercase_v ('0' :: 'x' :: (List.replicate 128 '1' ++ ['1', 'b']))
    (by decide) (by decide) (by decide) (by decide)

/-- Claim C5: both decoders throw the invalid-signature-length error
exactly when the input string is not 132 characters (0x plus 130 hex
characters, i.e. 65 bytes); on a 65-byte hex input they return r = bytes
[0,32), s = bytes [32,64) (each with a 0x prefix) and v = byte 64 read
as an unsigned integer. -/
theorem c5_decode_length_and_components :
    (∀ x : List Char,
      (parseSignature x = .error ("Invalid signature length") ↔ x.length ≠ 132) ∧
      (hexToSignature x = .error ("Invalid signature length") ↔ x.length ≠ 132)) ∧
    (∀ (r32 s32 : List Nat) (b64 : Nat), r32.length = 32 → s32.length = 32 → b64 < 256 →
      parseSignature ('0' :: 'x' :: hexOfBytes (r32 ++ s32 ++ [b64])) =
        .ok { v := some b64, r := '0' :: 'x' :: hexOfBytes r32,
              s := '0' :: 'x' :: hexOfBytes s32 } ∧
      hexToSignature ('0' :: 'x' :: hexOfBytes (r32 ++ s32 ++ [b64])) =
        .ok { v := some b64, r := '0' :: 'x' :: hexOfBytes r32,
              s := '0' :: 'x' :: hexOfBytes s32 }) := by
  constructor
  · intro x
    constructor
    · by_cases h : x.length = 132 <;> simp [parseSignature, h]
    · by_cases h : x.length = 132 <;> simp [hexToSignature, h]
  · intro r32 s32 b64 hr hs hb
    have hsplit : hexOfBytes (r32 ++ s32 ++ [b64]) =
        (hexOfBytes r32 ++ hexOfBytes s32) ++
          [hexDigitChar (b64 / 16), hexDigitChar (b64 % 16)] := by
      rw [hexOfBytes_append, hexOfBytes_append]
      simp [hexOfBytes, byteToHexChars]
    have hrlen : (hexOfBytes r32).length = 64 := by rw [hexOfBytes_length, hr]
    have hslen : (hexOfBytes s32).length = 64 := by rw [hexOfBytes_length, hs]
    have hmlen : (hexOfBytes r32 ++ hexOfBytes s32).length = 128 := by
      simp [hrlen, hslen]
    obtain ⟨hlen132, htake, hmid, hdrop⟩ :=
      sigDecomp (hexOfBytes r32 ++ hexOfBytes s32)
        (hexDigitChar (b64 / 16)) (hexDigitChar (b64 % 16)) hmlen
    constructor
    · rw [hsplit, parseSignature_ok_form _ hlen132]
      congr 1
      rw [SignatureData.mk.injEq]
      refine ⟨?_, ?_, ?_⟩
      · rw [hdrop]
        simp only [List.take_succ_cons, List.take_nil, List.take_zero]
        rw [jsParseIntHex_pair (b64 / 16) (b64 % 16) (by omega) (by omega)]
        congr 1
        omega
      · rw [htake, List.take_left' hrlen]
      · rw [hmid, List.drop_left' hrlen]
    · rw [hsplit, hexToSignature_ok_form _ hlen132]
      congr 1
      rw [SignatureData.mk.injEq]
      refine ⟨?_, ?_, ?_⟩
      · rw [hdrop]
        simp only [List.take_succ_cons, List.take_nil, List.take_zero]
        rw [jsParseIntHex_pair (b64 / 16) (b64 % 16) (by omega) (by omega)]
        congr 1
        omega
      · rw [htake, List.take_left' hrlen]
      · rw [hmid, List.drop_left' hrlen]

/-- Witness for C5 at a concrete 65-byte signature built from bytes. -/
theorem c5_decode_length_and_components_witness :
    (parseSignature ('0' :: 'x' :: List.replicate 130 'f') =
        .error ("Invalid signature length") ↔
      ('0' :: 'x' :: List.replicate 130 'f' : List Char).length ≠ 132) ∧
    (parseSignature ('0' :: 'x' ::
        hexOfBytes (List.replicate 32 17 ++ List.replicate 32 34 ++ [28])) =
      .ok { v := some 28, r := '0' :: 'x' :: hexOfBytes (List.replicate 32 17),
            s := '0' :: 'x' :: hexOfBytes (List.replicate 32 34) }) :=
  ⟨(c5_decode_length_and_components.1 ('0' :: 'x' :: List.replicate 130 'f')).1,
   (c5_decode_length_and_components.2 (List.replicate 32 17) (List.replicate 32 34) 28
      (by simp) (by simp) (by omega)).1⟩

/-- Claim C7 as amended: the orchestrator performs no local
deadline-expiry check — whenever the wallet is connected, the chain
reads and signing calls succeed and a relayer URL is configured,
`transferGasless` signs and produces the POST envelope even when the
caller-supplied deadline lies strictly before the current time; expiry
is left entirely to the contract. -/
theorem c7_no_local_deadline_check :
    ∀ (ctx : TransferCtx) (params : GaslessTransferParams) (user dl un tn dec : Nat)
      (nm sy : String) (rawSig msgSig authSig : List Char),
      ctx.account = some user →
      ctx.readUserNonce = .ok un →
      ctx.readTokenNonce = .ok tn →
      ctx.readTokenName = .ok nm →
      ctx.readTokenSymbol = .ok sy →
      ctx.readTokenDecimals = .ok dec →
      ctx.signTypedDataPermit = .ok rawSig →
      rawSig.length = 132 →
      ctx.signMessage = (fun _ => .ok msgSig) →
      ctx.signMessageAuth = .ok authSig →
      ctx.relayerServiceUrl ≠ "" →
      params.deadline = some dl → dl ≠ 0 → dl < ctx.now →
      ∃ body, transferGasless ctx params = .ok body ∧
        body.metaTx.deadline = dl ∧ body.signature = msgSig ∧
        body.metaTx.owner = user ∧ body.metaTx.nonce = un := by
  intro ctx params user dl un tn dec nm sy rawSig msgSig authSig
  intro hacc hun htn hnm hsy hdec hsig hsiglen hsm hsma hurl hdl hdl0 _hexp
  rw [transferGasless, hacc]
  simp only [hun, htn, hnm, hsy, hdec, hsig, hsm, hsma, getUserNonce, getTokenNonce,
    getTokenInfo, signPermit, hacc]
  rw [signPermitParse, if_pos hsiglen, parseSignature_ok_form _ hsiglen]
  simp only [hdl, jsOrBigint, hdl0, if_neg hdl0]
  rw [if_pos hurl]
  exact ⟨_, rfl, rfl, rfl, rfl, rfl⟩

/-- Witness for C7 at the concrete context and expired parameters. -/
theorem c7_no_local_deadline_check_witness :
    ∃ body, transferGasless exTransferCtx exExpiredParams = .ok body ∧
      body.metaTx.deadline = 5 ∧ body.signature = exSigHex ∧
      body.metaTx.owner = 0x3Ea837526E43C828433FDde7a5A46D71B54E765b ∧
      body.metaTx.nonce = 0 :=
  c7_no_local_deadline_check exTransferCtx exExpiredParams
    0x3Ea837526E43C828433FDde7a5A46D71B54E765b 5 0 0 6 "USD Coin" "USDC"
    exSigHex exSigHex exSigHex rfl rfl rfl rfl rfl rfl rfl (by decide) rfl rfl
    (by decide) rfl (by decide) (by decide)

/-- Claim C10 as amended: configuration resolution is total and
deterministic with caller-over-preset precedence, but the no-preset
constructor check is a JS truthiness test, so it throws exactly when any
of chainId, rpcUrl, or gaslessRelayerAddress is missing or falsy
(chainId 0 or an empty string also count as missing); with a preset it
never throws, each resolved field is the caller-supplied value when
present and the preset value otherwise, and relayerServiceUrl resolves
as relayerServiceUrl, else localRelayerUrl, else the preset URL (empty
string when no preset and neither is given). -/
theorem c10_config_resolution :
    (∀ cfg : GaslessConfig, cfg.chainPreset = none →
      ((∃ e, resolveConfig cfg = .error e) ↔
        (cfg.chainId = none ∨ cfg.chainId = some 0) ∨
        (cfg.rpcUrl = none ∨ cfg.rpcUrl = some "") ∨
        (cfg.gaslessRelayerAddress = none ∨ cfg.gaslessRelayerAddress = some ""))) ∧
    (∀ (cfg : GaslessConfig) (preset : ChainPreset), cfg.chainPreset = some preset →
      ∃ rc, resolveConfig cfg = .ok rc ∧
        rc.environment = cfg.environment.getD .production ∧
        (∀ v, cfg.chainId = some v → rc.chainId = v) ∧
        (cfg.chainId = none →
          rc.chainId = (createChainConfig preset (cfg.environment.getD .production)).chainId) ∧
        (∀ u, cfg.rpcUrl = some u → rc.rpcUrl = u) ∧
        (cfg.rpcUrl = none →
          rc.rpcUrl = (createChainConfig preset (cfg.environment.getD .production)).rpcUrl) ∧
        (∀ a, cfg.gaslessRelayerAddress = some a → rc.gaslessRelayerAddress = a) ∧
        (cfg.gaslessRelayerAddress = none → rc.gaslessRelayerAddress =
          (createChainConfig preset (cfg.environment.getD .production)).gaslessRelayerAddress) ∧
        (∀ u, cfg.relayerServiceUrl = some u → rc.relayerServiceUrl = u) ∧
        (cfg.relayerServiceUrl = none → ∀ u, cfg.localRelayerUrl = some u →
          rc.relayerServiceUrl = u) ∧
        (cfg.relayerServiceUrl = none → cfg.localRelayerUrl = none →
          rc.relayerServiceUrl =
            (createChainConfig preset (cfg.environment.getD .production)).relayerServiceUrl)) ∧
    (∀ (cfg : GaslessConfig) (v : Nat) (url addr : String), cfg.chainPreset = none →
      cfg.chainId = some v → v ≠ 0 → cfg.rpcUrl = some url → url ≠ "" →
      cfg.gaslessRelayerAddress = some addr → addr ≠ "" →
      ∃ rc, resolveConfig cfg = .ok rc ∧ rc.chainId = v ∧ rc.rpcUrl = url ∧
        rc.gaslessRelayerAddress = addr ∧
        rc.environment = cfg.environment.getD .production ∧
        (∀ u, cfg.relayerServiceUrl = some u → rc.relayerServiceUrl = u) ∧
        (cfg.relayerServiceUrl = none → ∀ u, cfg.localRelayerUrl = some u →
          rc.relayerServiceUrl = u) ∧
        (cfg.relayerServiceUrl = none → cfg.localRelayerUrl = none →
          rc.relayerServiceUrl = "")) := by
  refine ⟨?_, ?_, ?_⟩
  · intro cfg hp
    obtain ⟨cp, env, ci, ru, ga, rs, lu⟩ := cfg
    simp only at hp
    subst hp
    cases ci <;> cases ru <;> cases ga <;>
      simp [resolveConfig, jsFalsyNat, jsFalsyStr]
    rename_i v u a
    by_cases h : (v = 0 ∨ u = "") ∨ a = ""
    · simp only [h, if_true]
      simp
      tauto
    · simp only [h, if_false]
      simp
      tauto
  · intro cfg preset hp
    obtain ⟨cp, env, ci, ru, ga, rs, lu⟩ := cfg
    simp only at hp
    subst hp
    refine ⟨_, rfl, ?_, ?_, ?_, ?_, ?_, ?_, ?_, ?_, ?_, ?_⟩ <;>
      simp only [getChainConfig] <;>
      cases ci <;> cases ru <;> cases ga <;> cases rs <;> cases lu <;>
      simp [jsNullish]
  · intro cfg v url addr hp hci hv hru hu hga ha
    obtain ⟨cp, env, ci, ru, ga, rs, lu⟩ := cfg
    simp only at hp hci hru hga
    subst hp hci hru hga
    have hcond :
        ¬ (jsFalsyNat (some v) || jsFalsyStr (some url) || jsFalsyStr (some addr)) = true := by
      simp [jsFalsyNat, jsFalsyStr, hv, hu, ha]
    rw [resolveConfig]
    simp only
    rw [if_neg hcond]
    refine ⟨_, rfl, rfl, rfl, rfl, rfl, ?_, ?_, ?_⟩ <;>
      cases rs <;> cases lu <;> simp [jsNullish]

/-- Witness for C10: a preset config with a caller-supplied chainId, and
a presetless config with all three fields supplied and truthy. -/
theorem c10_config_resolution_witness :
    (∃ rc, resolveConfig
        { chainPreset := some .mantleSepolia, environment := none, chainId := some 7,
          rpcUrl := none, gaslessRelayerAddress := none, relayerServiceUrl := none,
          localRelayerUrl := none } = .ok rc ∧
      rc.environment = Environment.production ∧ rc.chainId = 7 ∧
      rc.rpcUrl = (createChainConfig .mantleSepolia .production).rpcUrl ∧
      rc.relayerServiceUrl = (createChainConfig .mantleSepolia .production).relayerServiceUrl) ∧
    (∃ rc, resolveConfig
        { chainPreset := none, environment := none, chainId := some 31337,
          rpcUrl := some "http://localhost:8545",
          gaslessRelayerAddress := some "0xc500592C002a23EeeB4e93CCfBA60B4c2683fDa9",
          relayerServiceUrl := none, localRelayerUrl := some "http://localhost:3001" } =
        .ok rc ∧ rc.chainId = 31337 ∧ rc.relayerServiceUrl = "http://localhost:3001") := by
  constructor
  · obtain ⟨rc, hok, henv, hc1, -, -, hrn, -, -, -, -, hr3⟩ :=
      c10_config_resolution.2.1
        { chainPreset := some .mantleSepolia, environment := none, chainId := some 7,
          rpcUrl := none, gaslessRelayerAddress := none, relayerServiceUrl := none,
          localRelayerUrl := none } .mantleSepolia rfl
    exact ⟨rc, hok, henv, hc1 7 rfl, hrn rfl, hr3 rfl rfl⟩
  · obtain ⟨rc, hok, hc, -, -, -, -, hl, -⟩ :=
      c10_config_resolution.2.2
        { chainPreset := none, environment := none, chainId := some 31337,
          rpcUrl := some "http://localhost:8545",
          gaslessRelayerAddress := some "0xc500592C002a23EeeB4e93CCfBA60B4c2683fDa9",
          relayerServiceUrl := none, localRelayerUrl := some "http://localhost:3001" }
        31337 "http://localhost:8545" "0xc500592C002a23EeeB4e93CCfBA60B4c2683fDa9"
        rfl rfl (by omega) rfl (by decide) rfl (by decide)
    exact ⟨rc, hok, hc, hl rfl "http://localhost:3001" rfl⟩

end Gasless

namespace Gasless

theorem stripTrailingZeros_decomp (l : List Char) :
    ∃ k, l = stripTrailingZeros l ++ List.replicate k '0' ∧
      (stripTrailingZeros l).length + k = l.length := by
  have hsplit := List.takeWhile_append_dropWhile (p := fun c => decide (c = '0')) (l := l.reverse)
  have htake : l.reverse.takeWhile (fun c => decide (c = '0')) =
      List.replicate (l.reverse.takeWhile (fun c => decide (c = '0'))).length '0' := by
    apply List.eq_replicate_of_mem
    intro b hb
    have := List.mem_takeWhile_imp hb
    simpa using this
  refine ⟨(l.reverse.takeWhile (fun c => decide (c = '0'))).length, ?_, ?_⟩
  · conv_lhs => rw [← l.reverse_reverse, ← hsplit]
    rw [List.reverse_append, stripTrailingZeros]
    congr 1
    conv_lhs => rw [htake]
    rw [List.reverse_replicate]
  · have hlen := congrArg List.length hsplit
    simp only [List.length_append, List.length_reverse] at hlen
    simp only [stripTrailingZeros, List.length_reverse]
    omega

theorem stripTrailingZeros_length_le (l : List Char) :
    (stripTrailingZeros l).length ≤ l.length := by
  obtain ⟨k, _, hlen⟩ := stripTrailingZeros_decomp l
  omega

theorem stripTrailingZeros_mem (l : List Char) :
    ∀ c ∈ stripTrailingZeros l, c ∈ l := by
  intro c hc
  simp only [stripTrailingZeros, List.mem_reverse] at hc
  have := (List.dropWhile_sublist (l := l.reverse) (p := fun c => decide (c = '0'))).mem hc
  simpa using this

theorem digitsToNat_replicate_zero_append (k : Nat) (l : List Char) :
    digitsToNat (List.replicate k '0' ++ l) = digitsToNat l := by
  simp only [digitsToNat, List.foldl_append]
  congr 1
  induction k with
  | zero => rfl
  | succ k ih => simpa [List.replicate_succ] using ih

theorem jsSplitDot_ne_nil (l : List Char) : jsSplitDot l ≠ [] := by
  cases l with
  | nil => simp [jsSplitDot]
  | cons c rest =>
    rw [jsSplitDot]
    cases jsSplitDot rest with
    | nil => simp
    | cons h t =>
      by_cases hc : c = '.' <;> simp [hc]

theorem jsSplitDot_no_dot (l : List Char) (h : ∀ c ∈ l, c ≠ '.') :
    jsSplitDot l = [l] := by
  induction l with
  | nil => rfl
  | cons c rest ih =>
    have hc : c ≠ '.' := h c (by simp)
    rw [jsSplitDot, ih (fun d hd => h d (by simp [hd]))]
    simp [hc]

theorem jsSplitDot_dot (a b : List Char) (ha : ∀ c ∈ a, c ≠ '.') :
    jsSplitDot (a ++ '.' :: b) = a :: jsSplitDot b := by
  induction a with
  | nil =>
    rw [List.nil_append]
    cases hb : jsSplitDot b with
    | nil => exact absurd hb (jsSplitDot_ne_nil b)
    | cons h t =>
      rw [jsSplitDot, hb]
      simp
  | cons c rest ih =>
    have hc : c ≠ '.' := ha c (by simp)
    rw [List.cons_append, jsSplitDot, ih (fun d hd => ha d (by simp [hd]))]
    simp [hc]

theorem isDigitChar_ne_dot (c : Char) (h : isDigitChar c = true) : c ≠ '.' := by
  intro hc
  subst hc
  simp [isDigitChar] at h

theorem pad_digits (r decimals : Nat) :
    ∀ c ∈ jsPadStart (natToDec r) decimals '0', isDigitChar c = true := by
  intro c hc
  simp only [jsPadStart, List.mem_append, List.mem_replicate] at hc
  rcases hc with ⟨_, hc⟩ | hc
  · subst hc
    decide
  · exact natToDec_digits r c hc

/-- Claim C9: for every non-negative amount and decimals count, parsing
the formatted token amount returns the original value:
parseTokenAmount (formatTokenAmount amount decimals) decimals = amount,
including amount 0, amount 1, and full-precision fractional values (all
instances of the universally quantified statement). -/
theorem c9_roundtrip (amount decimals : Nat) :
    parseTokenAmount (formatTokenAmount amount decimals) decimals = .ok amount := by
  have hdm := Nat.div_add_mod amount (10 ^ decimals)
  by_cases hr0 : amount % 10 ^ decimals = 0
  · rw [formatTokenAmount]
    simp only [hr0, if_true]
    rw [parseTokenAmount, jsSplitDot_no_dot _
      (fun c hc => isDigitChar_ne_dot c (natToDec_digits _ c hc))]
    have hne : (natToDec (amount / 10 ^ decimals)).isEmpty = false := by
      cases hnd : natToDec (amount / 10 ^ decimals) with
      | nil => exact absurd hnd (natToDec_ne_nil _)
      | cons c t => rfl
    have hall : (natToDec (amount / 10 ^ decimals)).all isDigitChar = true := by
      rw [List.all_eq_true]
      exact natToDec_digits _
    simp only [List.headD, List.drop, List.head?, hne, hall, Bool.false_or,
      Bool.not_true, Bool.false_and, if_false, Bool.and_false, List.isEmpty_nil,
      Bool.true_and, Bool.not_false, List.length_nil, Nat.not_lt_zero,
      Bool.false_eq_true]
    congr 1
    rw [show jsPadEnd [] decimals '0' = List.replicate decimals '0' by
      simp [jsPadEnd]]
    rw [digitsToNat_append]
    rw [show digitsToNat (List.replicate decimals '0') = 0 by
      have := digitsToNat_replicate_zero_append decimals []
      simpa [digitsToNat] using this]
    rw [digitsToNat_natToDec]
    simp only [List.length_replicate]
    rw [Nat.mul_comm]
    omega
  · have hrlt : amount % 10 ^ decimals < 10 ^ decimals :=
      Nat.mod_lt _ (Nat.pos_pow_of_pos _ (by omega))
    have hd1 : 1 ≤ decimals := by
      by_contra hd
      have : decimals = 0 := by omega
      subst this
      simp [Nat.mod_one] at hr0
    have hndlen : (natToDec (amount % 10 ^ decimals)).length ≤ decimals :=
      natToDec_length_le decimals _ hrlt hd1
    have hpadlen : (jsPadStart (natToDec (amount % 10 ^ decimals)) decimals '0').length
        = decimals := by
      simp only [jsPadStart, List.length_append, List.length_replicate]
      omega
    have hpadval : digitsToNat (jsPadStart (natToDec (amount % 10 ^ decimals)) decimals '0')
        = amount % 10 ^ decimals := by
      rw [jsPadStart, digitsToNat_replicate_zero_append, digitsToNat_natToDec]
    obtain ⟨k, hdecomp, hdlen⟩ :=
      stripTrailingZeros_decomp (jsPadStart (natToDec (amount % 10 ^ decimals)) decimals '0')
    have hfrac_ne : stripTrailingZeros
        (jsPadStart (natToDec (amount % 10 ^ decimals)) decimals '0') ≠ [] := by
      intro hnil
      rw [hnil, List.nil_append] at hdecomp
      rw [hdecomp] at hpadval
      have : digitsToNat (List.replicate k '0') = 0 := by
        have := digitsToNat_replicate_zero_append k []
        simpa [digitsToNat] using this
      omega
    have hfrac_len : (stripTrailingZeros
        (jsPadStart (natToDec (amount % 10 ^ decimals)) decimals '0')).length ≤ decimals := by
      have := stripTrailingZeros_length_le
        (jsPadStart (natToDec (amount % 10 ^ decimals)) decimals '0')
      omega
    have hfrac_digits : ∀ c ∈ stripTrailingZeros
        (jsPadStart (natToDec (amount % 10 ^ decimals)) decimals '0'), isDigitChar c = true :=
      fun c hc => pad_digits _ _ c (stripTrailingZeros_mem _ c hc)
    have hpadEnd : jsPadEnd (stripTrailingZeros
        (jsPadStart (natToDec (amount % 10 ^ decimals)) decimals '0')) decimals '0' =
        jsPadStart (natToDec (amount % 10 ^ decimals)) decimals '0' := by
      rw [jsPadEnd]
      conv_rhs => rw [hdecomp]
      congr 1
      congr 1
      omega
    rw [formatTokenAmount]
    simp only [hr0, if_false]
    rw [parseTokenAmount, jsSplitDot_dot _ _
        (fun c hc => isDigitChar_ne_dot c (natToDec_digits _ c hc)),
      jsSplitDot_no_dot _ (fun c hc => isDigitChar_ne_dot c (hfrac_digits c hc))]
    have hne : (natToDec (amount / 10 ^ decimals)).isEmpty = false := by
      cases hnd : natToDec (amount / 10 ^ decimals) with
      | nil => exact absurd hnd (natToDec_ne_nil _)
      | cons c t => rfl
    have hall : (natToDec (amount / 10 ^ decimals)).all isDigitChar = true := by
      rw [List.all_eq_true]
      exact natToDec_digits _
    have hfall : (stripTrailingZeros
        (jsPadStart (natToDec (amount % 10 ^ decimals)) decimals '0')).all isDigitChar
        = true := by
      rw [List.all_eq_true]
      exact hfrac_digits
    simp only [List.headD, List.drop, List.head?, hne, hall, hfall, Bool.false_or,
      Bool.not_true, Bool.false_and, if_false, Bool.and_false, List.isEmpty_nil,
      Bool.true_and, Bool.not_false, List.length_nil, Nat.not_lt_zero,
      Bool.false_eq_true]
    rw [if_neg (show ¬ decimals < (stripTrailingZeros
      (jsPadStart (natToDec (amount % 10 ^ decimals)) decimals '0')).length by omega)]
    congr 1
    rw [hpadEnd, digitsToNat_append, digitsToNat_natToDec, hpadval, hpadlen,
      Nat.mul_comm]
    omega

end Gasless
